import Mathlib

set_option linter.unusedVariables false

/-!
# Raspberry Pi CPU clock driver and BCM2711 AVS RO thermal sensor driver

A shallow embedding of

* `drivers/thermal/broadcom/bcm2711_thermal.c` (`bcm2711_get_temp`), and
* `drivers/clk/bcm/clk-raspberrypi.c` (`rpi_cpu_clock_property`,
  `rpi_cpu_get_rate`, `rpi_cpu_round_rate`, `rpi_cpu_set_rate`).

C integers are mathematical integers with explicit reduction wherever the C
type is narrower than the value: `int` and `u32` are 32 bits wide on every
Linux target, while the width of `long` and `unsigned long` is a parameter
`longBits` (32 on the 32-bit ARM build, 64 on the arm64 build).  Conversions
to a signed type that cannot hold the value wrap modulo the width, as GCC and
Clang define them.
-/

namespace CInt

/-- Conversion of an integer to the 32-bit unsigned type `u32`. -/
def toU32 (x : Int) : Int := x % 2 ^ 32

/-- Conversion of an integer to a signed type of `w` bits (two's complement wrap). -/
def toSigned (w : Nat) (x : Int) : Int := (x + 2 ^ (w - 1)) % 2 ^ w - 2 ^ (w - 1)

end CInt

namespace Bcm2711Thermal

open CInt

/-- Modelled from the spec: the macro `BIT` of `linux/bits.h` is not among the
sources; `BIT(n)` is the word with only bit `n` set. -/
def BIT (n : Nat) : Nat := 2 ^ n

/-- Modelled from the spec: the macro `GENMASK` of `linux/bits.h` is not among the
sources; `GENMASK(h, l)` is the word with bits `l` to `h` set ("masking to the
low 10 bits" for `GENMASK(9, 0)`). -/
def GENMASK (h l : Nat) : Nat := 2 ^ (h + 1) - 2 ^ l

/-- The macro `AVS_RO_TEMP_STATUS_valid_msk`, defined as `(BIT(16) | BIT(10))`. -/
def AVS_RO_TEMP_STATUS_valid_msk : Nat := BIT 16 ||| BIT 10

/-- The macro `AVS_RO_TEMP_STATUS_data_msk`, defined as `GENMASK(9, 0)`. -/
def AVS_RO_TEMP_STATUS_data_msk : Nat := GENMASK 9 0

/-- Modelled from the spec: the errno constant `EIO` of `errno-base.h` is not among
the sources; it is the "I/O-class error" returned for an invalid reading, a
positive number (5 in the kernel headers) that the driver returns negated. -/
def EIO : Int := 5

/-- The caller's `int` object that `temp` points to: its content and the number
of stores made through the pointer. -/
structure IntCell where
  val : Int
  stores : Nat
deriving DecidableEq, Repr

/-- The assignment `*temp = v`. -/
def IntCell.store (c : IntCell) (v : Int) : IntCell :=
  { val := v, stores := c.stores + 1 }

/-- The function `bcm2711_get_temp(data, temp)`.

* `longBits` is the width of `long` on the build;
* `slope`, `offset` are the `int` values returned by `thermal_zone_get_slope` and
  `thermal_zone_get_offset`;
* `reg` is the word returned by `__raw_readl(priv->base + AVS_RO_TEMP_STATUS)`;
* `temp` is the caller's output object.

The result is the returned `int` and the output object after the call.  In
`slope * val + offset` the operand `val` is a `u32`, so both `int` operands are
converted to `u32` and the product and the sum are computed modulo `2 ^ 32`;
the `u32` result is then converted to `long` for `t`, and `t` to `int` for
`*temp`. -/
def bcm2711_get_temp (longBits : Nat) (slope offset : Int) (reg : Nat) (temp : IntCell) :
    Int × IntCell :=
  let val : Nat := reg % 2 ^ 32
  if val &&& AVS_RO_TEMP_STATUS_valid_msk = 0 then
    (- EIO, temp)
  else
    let val : Nat := val &&& AVS_RO_TEMP_STATUS_data_msk
    let t : Int := toSigned longBits (toU32 (toU32 (toU32 slope * (val : Int)) + toU32 offset))
    if t < 0 then
      (0, temp.store 0)
    else
      (0, temp.store (toSigned 32 t))

/-- The temperature code of a status word: the value that
`val &= AVS_RO_TEMP_STATUS_data_msk` leaves in `val`. -/
def code_of (reg : Nat) : Nat := reg % 2 ^ 32 &&& AVS_RO_TEMP_STATUS_data_msk

end Bcm2711Thermal

namespace ClkRaspberrypi

open CInt

/-- The macro `VCMSG_ID_ARM_CLOCK`, defined as `0x000000003`. -/
def VCMSG_ID_ARM_CLOCK : Nat := 0x000000003

/-- Modelled from the spec: the header `soc/bcm2835/raspberrypi-firmware.h` is not
among the sources; of its property tags the driver uses two, the "get clock
rate" tag and the "set clock rate" tag, kept symbolic here. -/
inductive rpi_firmware_property_tag where
  | RPI_FIRMWARE_GET_CLOCK_RATE
  | RPI_FIRMWARE_SET_CLOCK_RATE
deriving DecidableEq, Repr

open rpi_firmware_property_tag

/-- The message `struct prop { u32 id; u32 val; } __packed`. -/
structure prop where
  id : Nat
  val : Nat
deriving DecidableEq, Repr

/-- The four bytes of a `u32` object in memory, lowest address first, in the byte
order of the build. -/
def u32_bytes (bigEndian : Bool) (x : Nat) : List Nat :=
  if bigEndian then
    [x / 2 ^ 24 % 256, x / 2 ^ 16 % 256, x / 2 ^ 8 % 256, x % 256]
  else
    [x % 256, x / 2 ^ 8 % 256, x / 2 ^ 16 % 256, x / 2 ^ 24 % 256]

/-- The `u32` read from the first four bytes of `b`. -/
def u32_of_bytes (bigEndian : Bool) (b : List Nat) : Nat :=
  let b0 := b.getD 0 0 % 256
  let b1 := b.getD 1 0 % 256
  let b2 := b.getD 2 0 % 256
  let b3 := b.getD 3 0 % 256
  if bigEndian then
    b0 * 2 ^ 24 + b1 * 2 ^ 16 + b2 * 2 ^ 8 + b3
  else
    b0 + b1 * 2 ^ 8 + b2 * 2 ^ 16 + b3 * 2 ^ 24

/-- The value of `sizeof(struct prop)`: the struct is `__packed`, two `u32` members. -/
def sizeof_prop : Nat := 4 + 4

/-- The object representation of a `struct prop`, the bytes at `&msg`: the
member `id` followed immediately by the member `val`. -/
def prop_bytes (bigEndian : Bool) (m : prop) : List Nat :=
  u32_bytes bigEndian m.id ++ u32_bytes bigEndian m.val

/-- The `struct prop` whose object representation starts `b`: `id` at offset 0,
`val` at offset 4. -/
def prop_of_bytes (bigEndian : Bool) (b : List Nat) : prop :=
  { id := u32_of_bytes bigEndian b, val := u32_of_bytes bigEndian (b.drop 4) }

/-- Modelled from the spec: `struct rpi_firmware` and `rpi_firmware_property` are
defined outside these sources.  The transport is "a reliable request/response
channel supplied externally": given a tag, the payload buffer and its length
it returns a status (0 on success) and "overwrites same buffer in place with
response values".  `property s tag data len` is the status, the content of
the buffer after the call and the next state of the firmware. -/
structure rpi_firmware (σ : Type) where
  property : σ → rpi_firmware_property_tag → List Nat → Nat → Int × List Nat × σ

/-- One call of `rpi_firmware_property` as seen by the transport. -/
structure PropertyCall where
  tag : rpi_firmware_property_tag
  data : List Nat
  len : Nat
deriving DecidableEq, Repr

/-- The firmware side of the mailbox: its state and the calls made so far, oldest
first. -/
structure Mailbox (σ : Type) where
  state : σ
  calls : List PropertyCall
deriving DecidableEq

/-- The call `rpi_firmware_property(fw, tag, data, len)`: one round-trip of the
transport, recorded in the mailbox. -/
def rpi_firmware_property {σ : Type} (fw : rpi_firmware σ) (tag : rpi_firmware_property_tag)
    (data : List Nat) (len : Nat) (mb : Mailbox σ) : Int × List Nat × Mailbox σ :=
  let r := fw.property mb.state tag data len
  (r.1, r.2.1, { state := r.2.2, calls := mb.calls ++ [{ tag := tag, data := data, len := len }] })

/-- The handle `struct rpi_cpu_clkgen { struct clk_hw hw; struct rpi_firmware *fw; }`. -/
structure rpi_cpu_clkgen (σ : Type) where
  fw : rpi_firmware σ

/-- The function `rpi_cpu_clock_property(fw, tag, val)`: the returned `int`, the
content of `*val` after the call and the mailbox after the call. -/
def rpi_cpu_clock_property {σ : Type} (bigEndian : Bool) (fw : rpi_firmware σ)
    (tag : rpi_firmware_property_tag) (val : Nat) (mb : Mailbox σ) : Int × Nat × Mailbox σ :=
  let msg : prop := { id := VCMSG_ID_ARM_CLOCK, val := val }
  let r := rpi_firmware_property fw tag (prop_bytes bigEndian msg) sizeof_prop mb
  let ret := r.1
  let msg : prop := prop_of_bytes bigEndian r.2.1
  if ret ≠ 0 then
    (ret, val, r.2.2)
  else
    (0, msg.val, r.2.2)

/-- The function `rpi_cpu_get_rate(hw, parent_rate)`: the returned `unsigned long`
and the mailbox after the call.  The `int` returned by
`rpi_cpu_clock_property` is not used. -/
def rpi_cpu_get_rate {σ : Type} (bigEndian : Bool) (hw : rpi_cpu_clkgen σ) (parent_rate : Nat)
    (mb : Mailbox σ) : Nat × Mailbox σ :=
  let cpu := hw
  let rate : Nat := 0
  let r := rpi_cpu_clock_property bigEndian cpu.fw RPI_FIRMWARE_GET_CLOCK_RATE rate mb
  let rate : Nat := r.2.1
  (rate, r.2.2)

/-- The function `rpi_cpu_round_rate(hw, rate, parent_rate)`: `return rate;`
converts the `unsigned long` argument to the return type `long`, both
`longBits` wide. -/
def rpi_cpu_round_rate {σ : Type} (longBits : Nat) (hw : rpi_cpu_clkgen σ) (rate : Nat)
    (parent_rate : Nat) : Int :=
  toSigned longBits ((rate % 2 ^ longBits : Nat) : Int)

/-- The function `rpi_cpu_set_rate(hw, rate, parent_rate)`: the returned `int` and
the mailbox after the call.  `u32 new_rate = rate` keeps the low 32 bits of
the `unsigned long` argument; the value left in `new_rate` by
`rpi_cpu_clock_property` is not used. -/
def rpi_cpu_set_rate {σ : Type} (bigEndian : Bool) (hw : rpi_cpu_clkgen σ) (rate : Nat)
    (parent_rate : Nat) (mb : Mailbox σ) : Int × Mailbox σ :=
  let cpu := hw
  let new_rate : Nat := rate % 2 ^ 32
  let r := rpi_cpu_clock_property bigEndian cpu.fw RPI_FIRMWARE_SET_CLOCK_RATE new_rate mb
  (r.1, r.2.2)

/-- A stateless test transport: every call returns `status` and leaves in the
buffer a message with the ARM clock id and the value `rate`. -/
def fixed_reply (bigEndian : Bool) (status : Int) (rate : Nat) : rpi_firmware Unit :=
  { property := fun _ _ _ _ =>
      (status, prop_bytes bigEndian { id := VCMSG_ID_ARM_CLOCK, val := rate }, ()) }

end ClkRaspberrypi

/-! ## Integer conversions -/

namespace CInt

theorem toU32_arith (a v b : Int) :
    toU32 (toU32 (toU32 a * v) + toU32 b) = (a * v + b) % 2 ^ 32 := by
  unfold toU32
  rw [Int.add_emod, Int.emod_emod_of_dvd _ (dvd_refl _), Int.emod_emod_of_dvd _ (dvd_refl _),
    Int.mul_emod, Int.emod_emod_of_dvd _ (dvd_refl _), ← Int.mul_emod, ← Int.add_emod]

theorem toSigned_32_emod (x : Int) : toSigned 32 (x % 2 ^ 32) = toSigned 32 x := by
  unfold toSigned
  have e1 : (2 : Int) ^ 32 = 4294967296 := by norm_num
  have e2 : (2 : Int) ^ (32 - 1) = 2147483648 := by norm_num
  rw [e1, e2]
  omega

theorem toSigned_32_of_range (x : Int) (hlo : -2 ^ 31 ≤ x) (hhi : x < 2 ^ 31) :
    toSigned 32 x = x := by
  unfold toSigned
  norm_num at *
  omega

theorem toSigned_of_lt_half (w : Nat) (hw : 0 < w) (x : Nat) (hx : x < 2 ^ (w - 1)) :
    toSigned w ((x % 2 ^ w : Nat) : Int) = x := by
  obtain ⟨k, rfl⟩ : ∃ k, w = k + 1 := ⟨w - 1, by omega⟩
  simp only [Nat.add_sub_cancel] at hx
  have hlt : x < 2 ^ (k + 1) := by
    rw [pow_succ]
    omega
  have hxi : (x : Int) < 2 ^ k := by exact_mod_cast hx
  have hpos : (0 : Int) < 2 ^ k := by positivity
  unfold toSigned
  rw [Nat.mod_eq_of_lt hlt]
  simp only [Nat.add_sub_cancel]
  have e : ((x : Int) + 2 ^ k) % 2 ^ (k + 1) = (x : Int) + 2 ^ k := by
    apply Int.emod_eq_of_lt
    · omega
    · rw [pow_succ]
      omega
  rw [e]
  omega

theorem toSigned_emod (w : Nat) (y : Int) : toSigned w y % 2 ^ w = y % 2 ^ w := by
  unfold toSigned
  rw [Int.sub_emod, Int.emod_emod_of_dvd _ (dvd_refl _), ← Int.sub_emod]
  simp

theorem toSigned_64_emod_32 (x : Int) : toSigned 64 (x % 2 ^ 32) = x % 2 ^ 32 := by
  unfold toSigned
  norm_num
  omega

end CInt

/-! ## The thermal sensor read -/

namespace Bcm2711Thermal

open CInt

theorem land_valid_msk_eq_zero_iff (n : Nat) :
    n &&& AVS_RO_TEMP_STATUS_valid_msk = 0 ↔ n.testBit 16 = false ∧ n.testBit 10 = false := by
  unfold AVS_RO_TEMP_STATUS_valid_msk BIT
  constructor
  · intro h
    have h16 : (n &&& (2 ^ 16 ||| 2 ^ 10)).testBit 16 = false := by
      rw [h]; exact Nat.zero_testBit 16
    have h10 : (n &&& (2 ^ 16 ||| 2 ^ 10)).testBit 10 = false := by
      rw [h]; exact Nat.zero_testBit 10
    rw [Nat.testBit_and, Nat.testBit_or, Nat.testBit_two_pow, Nat.testBit_two_pow] at h16 h10
    exact ⟨by simpa using h16, by simpa using h10⟩
  · rintro ⟨h16, h10⟩
    apply Nat.eq_of_testBit_eq
    intro i
    simp only [Nat.testBit_and, Nat.testBit_or, Nat.testBit_two_pow, Nat.zero_testBit]
    by_cases c16 : 16 = i
    · subst c16; simp [h16]
    · by_cases c10 : 10 = i
      · subst c10; simp [h10]
      · simp [c16, c10]

theorem land_data_msk (n : Nat) : n &&& AVS_RO_TEMP_STATUS_data_msk = n % 1024 := by
  have h := Nat.and_pow_two_sub_one_eq_mod n 10
  simpa [AVS_RO_TEMP_STATUS_data_msk, GENMASK] using h

theorem code_of_eq (reg : Nat) : code_of reg = reg % 1024 := by
  unfold code_of
  rw [land_data_msk]
  omega

theorem code_of_le (reg : Nat) : code_of reg ≤ 1023 := by
  rw [code_of_eq]
  omega

/-- Every call whose validity test passes returns 0 and stores once: with
`t` the `u32` value of `slope * val + offset` converted to `long`, it stores 0
when `t < 0` and `t` converted to `int` otherwise. -/
theorem get_temp_accepted (longBits : Nat) (slope offset : Int) (reg : Nat) (temp : IntCell)
    (hv : reg % 2 ^ 32 &&& AVS_RO_TEMP_STATUS_valid_msk ≠ 0) :
    bcm2711_get_temp longBits slope offset reg temp =
      (0, temp.store
        (if toSigned longBits ((slope * (code_of reg : Int) + offset) % 2 ^ 32) < 0 then 0
         else toSigned 32 (toSigned longBits ((slope * (code_of reg : Int) + offset) % 2 ^ 32)))) := by
  unfold bcm2711_get_temp
  simp only [if_neg hv, toU32_arith]
  unfold code_of
  split <;> rfl

/-- Every call whose validity test fails returns `-EIO` and leaves the output
object alone. -/
theorem get_temp_rejected (longBits : Nat) (slope offset : Int) (reg : Nat) (temp : IntCell)
    (hv : reg % 2 ^ 32 &&& AVS_RO_TEMP_STATUS_valid_msk = 0) :
    bcm2711_get_temp longBits slope offset reg temp = (- EIO, temp) := by
  unfold bcm2711_get_temp
  simp only [if_pos hv]

/-- Where `long` is 32 bits wide the clamp works: an accepted word whose exact
`slope * code + offset` fits `int` is reported as `max 0 (slope * code + offset)`. -/
theorem get_temp_long32 (slope offset : Int) (reg : Nat) (temp : IntCell)
    (hv : reg % 2 ^ 32 &&& AVS_RO_TEMP_STATUS_valid_msk ≠ 0)
    (hlo : -2 ^ 31 ≤ slope * (code_of reg : Int) + offset)
    (hhi : slope * (code_of reg : Int) + offset < 2 ^ 31) :
    bcm2711_get_temp 32 slope offset reg temp =
      (0, temp.store (max 0 (slope * (code_of reg : Int) + offset))) := by
  rw [get_temp_accepted 32 slope offset reg temp hv, toSigned_32_emod,
    toSigned_32_of_range _ hlo hhi, toSigned_32_of_range _ hlo hhi]
  split
  · rw [max_eq_left (by omega)]
  · rw [max_eq_right (by omega)]

/-- Where `long` is 32 bits wide the stored value is never negative, whatever
the slope and the offset. -/
theorem get_temp_long32_nonneg (slope offset : Int) (reg : Nat) (temp : IntCell)
    (hv : reg % 2 ^ 32 &&& AVS_RO_TEMP_STATUS_valid_msk ≠ 0) :
    0 ≤ (bcm2711_get_temp 32 slope offset reg temp).2.val := by
  rw [get_temp_accepted 32 slope offset reg temp hv]
  simp only [IntCell.store]
  split
  · exact le_refl 0
  · rename_i h
    have e : toSigned 32 (toSigned 32 ((slope * (code_of reg : Int) + offset) % 2 ^ 32)) =
        toSigned 32 ((slope * (code_of reg : Int) + offset) % 2 ^ 32) := by
      generalize (slope * (code_of reg : Int) + offset) % 2 ^ 32 = y
      unfold toSigned
      have e1 : (2 : Int) ^ 32 = 4294967296 := by norm_num
      have e2 : (2 : Int) ^ (32 - 1) = 2147483648 := by norm_num
      rw [e1, e2]
      omega
    rw [e]
    omega

/-- Where `long` is 64 bits wide the test `t < 0` never holds: an accepted word
whose exact `slope * code + offset` fits `int` is reported as that value itself,
negative or not. -/
theorem get_temp_long64 (slope offset : Int) (reg : Nat) (temp : IntCell)
    (hv : reg % 2 ^ 32 &&& AVS_RO_TEMP_STATUS_valid_msk ≠ 0)
    (hlo : -2 ^ 31 ≤ slope * (code_of reg : Int) + offset)
    (hhi : slope * (code_of reg : Int) + offset < 2 ^ 31) :
    bcm2711_get_temp 64 slope offset reg temp =
      (0, temp.store (slope * (code_of reg : Int) + offset)) := by
  rw [get_temp_accepted 64 slope offset reg temp hv, toSigned_64_emod_32, toSigned_32_emod,
    toSigned_32_of_range _ hlo hhi]
  have h : ¬ (slope * (code_of reg : Int) + offset) % 2 ^ 32 < 0 := by
    have := Int.emod_nonneg (slope * (code_of reg : Int) + offset)
      (show (2 : Int) ^ 32 ≠ 0 by norm_num)
    omega
  rw [if_neg h]

/-- The validity test of the code, `val & AVS_RO_TEMP_STATUS_valid_msk` being zero,
in terms of the two bits of the status word. -/
theorem valid_test_iff_bits (reg : Nat) :
    (reg % 2 ^ 32 &&& AVS_RO_TEMP_STATUS_valid_msk = 0) ↔
      (reg.testBit 16 = false ∧ reg.testBit 10 = false) := by
  rw [land_valid_msk_eq_zero_iff, Nat.testBit_mod_two_pow, Nat.testBit_mod_two_pow]
  simp

/-- C1, as stated, fails: the status word `0x00000464` has bit 10 set and bit 16
clear, so the two validity bits are not both set, yet the read does not fail
with `-EIO`; it returns 0 and stores the converted code 100. -/
theorem get_temp_single_valid_bit_not_rejected :
    bcm2711_get_temp 64 1 0 0x00000464 ⟨0, 0⟩ = (0, ⟨100, 1⟩) ∧
    ¬ ((bcm2711_get_temp 64 1 0 0x00000464 ⟨0, 0⟩).1 = - EIO ↔
        ¬ ((0x00000464 : Nat).testBit 16 = true ∧ (0x00000464 : Nat).testBit 10 = true)) := by
  decide

/-- C1, amended: for every status word, slope, offset and width of `long`, the
read fails with `-EIO` if and only if neither bit 16 nor bit 10 of the status
word is set, and then the output is left alone; a word with at least one of
the two bits set is accepted and converted from its code bits alone, exactly
as the word `AVS_RO_TEMP_STATUS_valid_msk + code`, which has both bits set and
the same code: the call returns 0 and stores 0 when `t < 0` and `t` converted
to `int` otherwise, `t` being the `u32` value of `slope * code + offset`
converted to `long`. -/
theorem get_temp_eio_iff_no_valid_bit (longBits : Nat) (slope offset : Int) (reg : Nat)
    (temp : IntCell) :
    ((bcm2711_get_temp longBits slope offset reg temp).1 = - EIO ↔
      (reg.testBit 16 = false ∧ reg.testBit 10 = false)) ∧
    bcm2711_get_temp longBits slope offset reg temp =
      (if reg.testBit 16 = false ∧ reg.testBit 10 = false then (- EIO, temp)
       else (0, temp.store
        (if toSigned longBits ((slope * (code_of reg : Int) + offset) % 2 ^ 32) < 0 then 0
         else toSigned 32
          (toSigned longBits ((slope * (code_of reg : Int) + offset) % 2 ^ 32))))) ∧
    bcm2711_get_temp longBits slope offset (AVS_RO_TEMP_STATUS_valid_msk + code_of reg) temp =
      (0, temp.store
        (if toSigned longBits ((slope * (code_of reg : Int) + offset) % 2 ^ 32) < 0 then 0
         else toSigned 32
          (toSigned longBits ((slope * (code_of reg : Int) + offset) % 2 ^ 32)))) ∧
    (AVS_RO_TEMP_STATUS_valid_msk + code_of reg).testBit 16 = true ∧
    (AVS_RO_TEMP_STATUS_valid_msk + code_of reg).testBit 10 = true ∧
    code_of (AVS_RO_TEMP_STATUS_valid_msk + code_of reg) = code_of reg := by
  have hb := valid_test_iff_bits reg
  have hm : AVS_RO_TEMP_STATUS_valid_msk = 66560 := by decide
  have hc := code_of_le reg
  have h16 : (AVS_RO_TEMP_STATUS_valid_msk + code_of reg).testBit 16 = true := by
    rw [hm, Nat.testBit_to_div_mod]
    simp only [decide_eq_true_eq]
    omega
  have h10 : (AVS_RO_TEMP_STATUS_valid_msk + code_of reg).testBit 10 = true := by
    rw [hm, Nat.testBit_to_div_mod]
    simp only [decide_eq_true_eq]
    omega
  have hcode : code_of (AVS_RO_TEMP_STATUS_valid_msk + code_of reg) = code_of reg := by
    rw [code_of_eq (AVS_RO_TEMP_STATUS_valid_msk + code_of reg), hm]
    omega
  have hboth : (AVS_RO_TEMP_STATUS_valid_msk + code_of reg) % 2 ^ 32 &&&
      AVS_RO_TEMP_STATUS_valid_msk ≠ 0 := by
    intro h0
    have h := (valid_test_iff_bits _).mp h0
    rw [h16] at h
    exact absurd h.1 (by decide)
  refine ⟨?_, ?_, ?_, h16, h10, hcode⟩
  · by_cases hv : reg % 2 ^ 32 &&& AVS_RO_TEMP_STATUS_valid_msk = 0
    · rw [get_temp_rejected longBits slope offset reg temp hv]
      exact ⟨fun _ => hb.mp hv, fun _ => rfl⟩
    · rw [get_temp_accepted longBits slope offset reg temp hv]
      constructor
      · intro h
        have h0 : (0 : Int) = - EIO := h
        exact absurd h0 (by decide)
      · intro h
        exact absurd (hb.mpr h) hv
  · by_cases hv : reg % 2 ^ 32 &&& AVS_RO_TEMP_STATUS_valid_msk = 0
    · rw [get_temp_rejected longBits slope offset reg temp hv, if_pos (hb.mp hv)]
    · rw [get_temp_accepted longBits slope offset reg temp hv,
        if_neg (fun h => hv (hb.mpr h))]
  · rw [get_temp_accepted longBits slope offset _ temp hboth, hcode]

/-- C2, the code at the failing input: with a 64-bit `long`, slope -1000, offset
50000 and the status word `0x00010464` (both validity bits set, code 100) the
read returns 0 and stores -50000, not the clamped value 0; with a 32-bit
`long` the same call stores 0. -/
theorem get_temp_long64_stores_negative :
    code_of 0x00010464 = 100 ∧
    bcm2711_get_temp 64 (-1000) 50000 0x00010464 ⟨0, 0⟩ = (0, ⟨-50000, 1⟩) ∧
    bcm2711_get_temp 32 (-1000) 50000 0x00010464 ⟨0, 0⟩ = (0, ⟨0, 1⟩) := by
  decide

/-- C5, the code at the failing input: with a 64-bit `long`, slope -487, offset
410040 and the status word `0x000107FF` (both validity bits set, code 1023)
the value written to the caller is -88161, a negative number. -/
theorem get_temp_long64_output_negative :
    (bcm2711_get_temp 64 (-487) 410040 0x000107FF ⟨0, 0⟩).1 = 0 ∧
    (bcm2711_get_temp 64 (-487) 410040 0x000107FF ⟨0, 0⟩).2.val = -88161 ∧
    (bcm2711_get_temp 64 (-487) 410040 0x000107FF ⟨0, 0⟩).2.val < 0 := by
  decide

/-- C10: for every status word that fails the validity test, whatever the slope,
the offset, the width of `long` and the prior content of the output, the
call returns `-EIO` and leaves the output object exactly as it was, with no
store made through `temp`; more generally every call that returns `-EIO`
leaves the output object as it was; and every call that returns 0 has made
exactly one store through `temp`. -/
theorem get_temp_rejected_output_untouched (longBits : Nat) (slope offset : Int) (reg : Nat)
    (temp : IntCell) :
    (reg % 2 ^ 32 &&& AVS_RO_TEMP_STATUS_valid_msk = 0 →
      bcm2711_get_temp longBits slope offset reg temp = (- EIO, temp)) ∧
    ((bcm2711_get_temp longBits slope offset reg temp).1 = - EIO →
      (bcm2711_get_temp longBits slope offset reg temp).2 = temp) ∧
    ((bcm2711_get_temp longBits slope offset reg temp).1 = 0 →
      (bcm2711_get_temp longBits slope offset reg temp).2.stores = temp.stores + 1) := by
  refine ⟨get_temp_rejected longBits slope offset reg temp, ?_, ?_⟩
  · by_cases hv : reg % 2 ^ 32 &&& AVS_RO_TEMP_STATUS_valid_msk = 0
    · rw [get_temp_rejected longBits slope offset reg temp hv]
      intro _
      rfl
    · rw [get_temp_accepted longBits slope offset reg temp hv]
      intro h
      have h0 : (0 : Int) = - EIO := h
      exact absurd h0 (by decide)
  · by_cases hv : reg % 2 ^ 32 &&& AVS_RO_TEMP_STATUS_valid_msk = 0
    · rw [get_temp_rejected longBits slope offset reg temp hv]
      intro h
      have h0 : - EIO = 0 := h
      exact absurd h0 (by decide)
    · rw [get_temp_accepted longBits slope offset reg temp hv]
      intro _
      rfl

/-- C10 at concrete inputs: the word `0x00000064` is rejected and the output keeps
its prior content 7; the word `0x00010464` is accepted and the output has
been stored to once. -/
theorem get_temp_rejected_output_untouched_witness :
    bcm2711_get_temp 64 1 0 0x00000064 ⟨7, 0⟩ = (- EIO, ⟨7, 0⟩) ∧
    (bcm2711_get_temp 64 1 0 0x00010464 ⟨7, 0⟩).2.stores = 0 + 1 :=
  ⟨(get_temp_rejected_output_untouched 64 1 0 0x00000064 ⟨7, 0⟩).1 (by decide),
   (get_temp_rejected_output_untouched 64 1 0 0x00010464 ⟨7, 0⟩).2.2 (by decide)⟩

end Bcm2711Thermal

/-! ## The firmware clock -/

namespace ClkRaspberrypi

open CInt rpi_firmware_property_tag

theorem u32_of_bytes_u32_bytes (bigEndian : Bool) (x : Nat) :
    u32_of_bytes bigEndian (u32_bytes bigEndian x) = x % 2 ^ 32 := by
  cases bigEndian <;> simp [u32_of_bytes, u32_bytes] <;> omega

theorem u32_bytes_length (bigEndian : Bool) (x : Nat) : (u32_bytes bigEndian x).length = 4 := by
  cases bigEndian <;> rfl

theorem u32_bytes_lt (bigEndian : Bool) (x b : Nat) (hb : b ∈ u32_bytes bigEndian x) :
    b < 256 := by
  cases bigEndian <;> simp [u32_bytes] at hb <;> omega

theorem prop_of_bytes_prop_bytes (bigEndian : Bool) (m : prop) :
    prop_of_bytes bigEndian (prop_bytes bigEndian m) =
      { id := m.id % 2 ^ 32, val := m.val % 2 ^ 32 } := by
  have hd : (prop_bytes bigEndian m).drop 4 = u32_bytes bigEndian m.val := by
    cases bigEndian <;> rfl
  have hi : u32_of_bytes bigEndian (prop_bytes bigEndian m) =
      u32_of_bytes bigEndian (u32_bytes bigEndian m.id) := by
    cases bigEndian <;> rfl
  unfold prop_of_bytes
  rw [hd, hi, u32_of_bytes_u32_bytes, u32_of_bytes_u32_bytes]

/-- The result of `rpi_cpu_clock_property` in terms of the one transport call it
makes. -/
theorem clock_property_eq {σ : Type} (bigEndian : Bool) (fw : rpi_firmware σ)
    (tag : rpi_firmware_property_tag) (val : Nat) (mb : Mailbox σ) :
    rpi_cpu_clock_property bigEndian fw tag val mb =
      ((fw.property mb.state tag (prop_bytes bigEndian ⟨VCMSG_ID_ARM_CLOCK, val⟩) sizeof_prop).1,
       (if (fw.property mb.state tag
              (prop_bytes bigEndian ⟨VCMSG_ID_ARM_CLOCK, val⟩) sizeof_prop).1 ≠ 0
        then val
        else (prop_of_bytes bigEndian (fw.property mb.state tag
              (prop_bytes bigEndian ⟨VCMSG_ID_ARM_CLOCK, val⟩) sizeof_prop).2.1).val),
       ⟨(fw.property mb.state tag (prop_bytes bigEndian ⟨VCMSG_ID_ARM_CLOCK, val⟩) sizeof_prop).2.2,
        mb.calls ++ [⟨tag, prop_bytes bigEndian ⟨VCMSG_ID_ARM_CLOCK, val⟩, sizeof_prop⟩]⟩) := by
  unfold rpi_cpu_clock_property rpi_firmware_property
  by_cases h : (fw.property mb.state tag
      (prop_bytes bigEndian ⟨VCMSG_ID_ARM_CLOCK, val⟩) sizeof_prop).1 = 0
  · simp [h]
  · simp [h]

/-- C6: for every transport whose round-trip succeeds, `rpi_cpu_get_rate` makes
exactly one property call, with the "get clock rate" tag, the length
`sizeof(struct prop)` and a message whose id is the ARM clock identifier 3 and
whose value is 0, and it returns exactly the value field of the response; the
argument `parent_rate` has no influence on the call or on the result. -/
theorem get_rate_returns_response_value {σ : Type} (bigEndian : Bool) (hw : rpi_cpu_clkgen σ)
    (parent_rate : Nat) (mb : Mailbox σ)
    (hok : (hw.fw.property mb.state RPI_FIRMWARE_GET_CLOCK_RATE
      (prop_bytes bigEndian ⟨VCMSG_ID_ARM_CLOCK, 0⟩) sizeof_prop).1 = 0) :
    rpi_cpu_get_rate bigEndian hw parent_rate mb =
      ((prop_of_bytes bigEndian (hw.fw.property mb.state RPI_FIRMWARE_GET_CLOCK_RATE
          (prop_bytes bigEndian ⟨VCMSG_ID_ARM_CLOCK, 0⟩) sizeof_prop).2.1).val,
       ⟨(hw.fw.property mb.state RPI_FIRMWARE_GET_CLOCK_RATE
          (prop_bytes bigEndian ⟨VCMSG_ID_ARM_CLOCK, 0⟩) sizeof_prop).2.2,
        mb.calls ++ [⟨RPI_FIRMWARE_GET_CLOCK_RATE,
          prop_bytes bigEndian ⟨VCMSG_ID_ARM_CLOCK, 0⟩, sizeof_prop⟩]⟩) ∧
    prop_of_bytes bigEndian (prop_bytes bigEndian ⟨VCMSG_ID_ARM_CLOCK, 0⟩) = ⟨3, 0⟩ ∧
    ∀ other_parent_rate : Nat,
      rpi_cpu_get_rate bigEndian hw other_parent_rate mb =
        rpi_cpu_get_rate bigEndian hw parent_rate mb := by
  refine ⟨?_, ?_, fun _ => rfl⟩
  · unfold rpi_cpu_get_rate
    simp only [clock_property_eq]
    rw [if_neg (not_not.mpr hok)]
  · rw [prop_of_bytes_prop_bytes]
    rfl

/-- C6 at a concrete input: a transport that succeeds and answers 1500000000 Hz. -/
theorem get_rate_returns_response_value_witness :
    rpi_cpu_get_rate false ⟨fixed_reply false 0 1500000000⟩ 0 ⟨(), []⟩ =
      (1500000000, ⟨(), [⟨RPI_FIRMWARE_GET_CLOCK_RATE, [3, 0, 0, 0, 0, 0, 0, 0], 8⟩]⟩) :=
  (get_rate_returns_response_value false ⟨fixed_reply false 0 1500000000⟩ 0 ⟨(), []⟩
    (by decide)).1.trans (by decide)

/-- C3, as stated, fails: the transport `fixed_reply false (-22) 1500000000` fails
every call with status -22, yet `rpi_cpu_get_rate` reports the rate 0, which is
not the value field of a successful response. -/
theorem get_rate_failure_reported_as_zero :
    ((fixed_reply false (-22) 1500000000).property () RPI_FIRMWARE_GET_CLOCK_RATE
      (prop_bytes false ⟨VCMSG_ID_ARM_CLOCK, 0⟩) sizeof_prop).1 = -22 ∧
    (rpi_cpu_get_rate false ⟨fixed_reply false (-22) 1500000000⟩ 0 ⟨(), []⟩).1 = 0 ∧
    ¬ ((rpi_cpu_get_rate false ⟨fixed_reply false (-22) 1500000000⟩ 0 ⟨(), []⟩).1 = 0 →
        ((fixed_reply false (-22) 1500000000).property () RPI_FIRMWARE_GET_CLOCK_RATE
          (prop_bytes false ⟨VCMSG_ID_ARM_CLOCK, 0⟩) sizeof_prop).1 = 0) := by
  decide

/-- C3, amended: for every transport whose property call fails,
`rpi_cpu_get_rate` makes that one call, discards its status and returns 0, the
initial value of its local `rate`; nothing of the failure reaches the caller. -/
theorem get_rate_zero_on_failure {σ : Type} (bigEndian : Bool) (hw : rpi_cpu_clkgen σ)
    (parent_rate : Nat) (mb : Mailbox σ)
    (hfail : (hw.fw.property mb.state RPI_FIRMWARE_GET_CLOCK_RATE
      (prop_bytes bigEndian ⟨VCMSG_ID_ARM_CLOCK, 0⟩) sizeof_prop).1 ≠ 0) :
    rpi_cpu_get_rate bigEndian hw parent_rate mb =
      (0,
       ⟨(hw.fw.property mb.state RPI_FIRMWARE_GET_CLOCK_RATE
          (prop_bytes bigEndian ⟨VCMSG_ID_ARM_CLOCK, 0⟩) sizeof_prop).2.2,
        mb.calls ++ [⟨RPI_FIRMWARE_GET_CLOCK_RATE,
          prop_bytes bigEndian ⟨VCMSG_ID_ARM_CLOCK, 0⟩, sizeof_prop⟩]⟩) := by
  unfold rpi_cpu_get_rate
  simp only [clock_property_eq]
  rw [if_pos hfail]

/-- C3, amended, at a concrete input: a transport that fails with status -22. -/
theorem get_rate_zero_on_failure_witness :
    rpi_cpu_get_rate true ⟨fixed_reply true (-22) 1500000000⟩ 0 ⟨(), []⟩ =
      (0, ⟨(), [⟨RPI_FIRMWARE_GET_CLOCK_RATE, [0, 0, 0, 3, 0, 0, 0, 0], 8⟩]⟩) :=
  (get_rate_zero_on_failure true ⟨fixed_reply true (-22) 1500000000⟩ 0 ⟨(), []⟩
    (by decide)).trans (by decide)

/-- C4, as stated, fails: the transport `fixed_reply false 0 600000000` succeeds
and confirms 600000000 Hz for the request of 1500000000 Hz, yet the result of
`rpi_cpu_set_rate` is 0, not the value field 600000000 of the response. -/
theorem set_rate_result_is_not_applied_rate :
    (prop_of_bytes false ((fixed_reply false 0 600000000).property () RPI_FIRMWARE_SET_CLOCK_RATE
      (prop_bytes false ⟨VCMSG_ID_ARM_CLOCK, 1500000000⟩) sizeof_prop).2.1).val = 600000000 ∧
    (rpi_cpu_set_rate false ⟨fixed_reply false 0 600000000⟩ 1500000000 0 ⟨(), []⟩).1 = 0 ∧
    ¬ ((rpi_cpu_set_rate false ⟨fixed_reply false 0 600000000⟩ 1500000000 0 ⟨(), []⟩).1 =
        ((prop_of_bytes false ((fixed_reply false 0 600000000).property ()
          RPI_FIRMWARE_SET_CLOCK_RATE
          (prop_bytes false ⟨VCMSG_ID_ARM_CLOCK, 1500000000⟩) sizeof_prop).2.1).val : Int)) := by
  decide

/-- C4, amended: for every 32-bit requested rate and every transport whose
round-trip succeeds, `rpi_cpu_set_rate` makes one property call with the "set
clock rate" tag and a message whose id is the ARM clock identifier 3 and
whose value is the requested rate, and its result is the status 0; the value
field of the response is stored into the local `new_rate` by
`rpi_cpu_clock_property` and is not part of the result. -/
theorem set_rate_success {σ : Type} (bigEndian : Bool) (hw : rpi_cpu_clkgen σ)
    (rate parent_rate : Nat) (mb : Mailbox σ) (hrate : rate < 2 ^ 32)
    (hok : (hw.fw.property mb.state RPI_FIRMWARE_SET_CLOCK_RATE
      (prop_bytes bigEndian ⟨VCMSG_ID_ARM_CLOCK, rate⟩) sizeof_prop).1 = 0) :
    rpi_cpu_set_rate bigEndian hw rate parent_rate mb =
      (0,
       ⟨(hw.fw.property mb.state RPI_FIRMWARE_SET_CLOCK_RATE
          (prop_bytes bigEndian ⟨VCMSG_ID_ARM_CLOCK, rate⟩) sizeof_prop).2.2,
        mb.calls ++ [⟨RPI_FIRMWARE_SET_CLOCK_RATE,
          prop_bytes bigEndian ⟨VCMSG_ID_ARM_CLOCK, rate⟩, sizeof_prop⟩]⟩) ∧
    prop_of_bytes bigEndian (prop_bytes bigEndian ⟨VCMSG_ID_ARM_CLOCK, rate⟩) = ⟨3, rate⟩ ∧
    (rpi_cpu_clock_property bigEndian hw.fw RPI_FIRMWARE_SET_CLOCK_RATE rate mb).2.1 =
      (prop_of_bytes bigEndian (hw.fw.property mb.state RPI_FIRMWARE_SET_CLOCK_RATE
        (prop_bytes bigEndian ⟨VCMSG_ID_ARM_CLOCK, rate⟩) sizeof_prop).2.1).val := by
  have hr : rate % 2 ^ 32 = rate := Nat.mod_eq_of_lt hrate
  refine ⟨?_, ?_, ?_⟩
  · unfold rpi_cpu_set_rate
    simp only [clock_property_eq, hr]
    rw [hok]
  · rw [prop_of_bytes_prop_bytes]
    simp only [hr]
    rfl
  · simp only [clock_property_eq]
    rw [if_neg (not_not.mpr hok)]

/-- C4, amended, at a concrete input: a request of 1500000000 Hz that the
firmware answers with 600000000 Hz. -/
theorem set_rate_success_witness :
    rpi_cpu_set_rate false ⟨fixed_reply false 0 600000000⟩ 1500000000 0 ⟨(), []⟩ =
      (0, ⟨(), [⟨RPI_FIRMWARE_SET_CLOCK_RATE, [3, 0, 0, 0, 0x00, 0x2f, 0x68, 0x59], 8⟩]⟩) :=
  (set_rate_success false ⟨fixed_reply false 0 600000000⟩ 1500000000 0 ⟨(), []⟩
    (by decide) (by decide)).1.trans (by decide)

/-- C8: for every requested rate and every transport, `rpi_cpu_set_rate` makes
exactly one property call, whether it succeeds or fails, and returns the
status of that call unchanged; so it fails if and only if the round-trip
fails. -/
theorem set_rate_returns_transport_status {σ : Type} (bigEndian : Bool) (hw : rpi_cpu_clkgen σ)
    (rate parent_rate : Nat) (mb : Mailbox σ) :
    rpi_cpu_set_rate bigEndian hw rate parent_rate mb =
      ((hw.fw.property mb.state RPI_FIRMWARE_SET_CLOCK_RATE
          (prop_bytes bigEndian ⟨VCMSG_ID_ARM_CLOCK, rate % 2 ^ 32⟩) sizeof_prop).1,
       ⟨(hw.fw.property mb.state RPI_FIRMWARE_SET_CLOCK_RATE
          (prop_bytes bigEndian ⟨VCMSG_ID_ARM_CLOCK, rate % 2 ^ 32⟩) sizeof_prop).2.2,
        mb.calls ++ [⟨RPI_FIRMWARE_SET_CLOCK_RATE,
          prop_bytes bigEndian ⟨VCMSG_ID_ARM_CLOCK, rate % 2 ^ 32⟩, sizeof_prop⟩]⟩) ∧
    ((rpi_cpu_set_rate bigEndian hw rate parent_rate mb).1 ≠ 0 ↔
      (hw.fw.property mb.state RPI_FIRMWARE_SET_CLOCK_RATE
          (prop_bytes bigEndian ⟨VCMSG_ID_ARM_CLOCK, rate % 2 ^ 32⟩) sizeof_prop).1 ≠ 0) := by
  have h : rpi_cpu_set_rate bigEndian hw rate parent_rate mb =
      ((hw.fw.property mb.state RPI_FIRMWARE_SET_CLOCK_RATE
          (prop_bytes bigEndian ⟨VCMSG_ID_ARM_CLOCK, rate % 2 ^ 32⟩) sizeof_prop).1,
       ⟨(hw.fw.property mb.state RPI_FIRMWARE_SET_CLOCK_RATE
          (prop_bytes bigEndian ⟨VCMSG_ID_ARM_CLOCK, rate % 2 ^ 32⟩) sizeof_prop).2.2,
        mb.calls ++ [⟨RPI_FIRMWARE_SET_CLOCK_RATE,
          prop_bytes bigEndian ⟨VCMSG_ID_ARM_CLOCK, rate % 2 ^ 32⟩, sizeof_prop⟩]⟩) := by
    unfold rpi_cpu_set_rate
    simp only [clock_property_eq]
  refine ⟨h, ?_⟩
  rw [h]

/-- C9: the message handed to the transport is 8 bytes, the four bytes of `id`
at offsets 0..3 followed by the four bytes of `val` at offsets 4..7, with
nothing in between or after; for all 32-bit `id` and `val` reading the
message back from its bytes gives the same `id` and `val`; and the call that
`rpi_cpu_clock_property` makes passes these bytes with the length
`sizeof(struct prop)`, which is 8. -/
theorem prop_framing {σ : Type} (bigEndian : Bool) (id val : Nat) (fw : rpi_firmware σ)
    (tag : rpi_firmware_property_tag) (mb : Mailbox σ)
    (hid : id < 2 ^ 32) (hval : val < 2 ^ 32) :
    sizeof_prop = 8 ∧
    (prop_bytes bigEndian ⟨id, val⟩).length = sizeof_prop ∧
    (∀ b ∈ prop_bytes bigEndian ⟨id, val⟩, b < 256) ∧
    (prop_bytes bigEndian ⟨id, val⟩).take 4 = u32_bytes bigEndian id ∧
    (prop_bytes bigEndian ⟨id, val⟩).drop 4 = u32_bytes bigEndian val ∧
    u32_of_bytes bigEndian (u32_bytes bigEndian id) = id ∧
    u32_of_bytes bigEndian (u32_bytes bigEndian val) = val ∧
    prop_of_bytes bigEndian (prop_bytes bigEndian ⟨id, val⟩) = ⟨id, val⟩ ∧
    (rpi_cpu_clock_property bigEndian fw tag val mb).2.2.calls =
      mb.calls ++ [⟨tag, prop_bytes bigEndian ⟨VCMSG_ID_ARM_CLOCK, val⟩, 8⟩] := by
  have hi : id % 2 ^ 32 = id := Nat.mod_eq_of_lt hid
  have hv : val % 2 ^ 32 = val := Nat.mod_eq_of_lt hval
  refine ⟨rfl, ?_, ?_, ?_, ?_, ?_, ?_, ?_, ?_⟩
  · cases bigEndian <;> rfl
  · intro b hb
    unfold prop_bytes at hb
    rcases List.mem_append.mp hb with h | h
    · exact u32_bytes_lt bigEndian id b h
    · exact u32_bytes_lt bigEndian val b h
  · cases bigEndian <;> rfl
  · cases bigEndian <;> rfl
  · rw [u32_of_bytes_u32_bytes, hi]
  · rw [u32_of_bytes_u32_bytes, hv]
  · rw [prop_of_bytes_prop_bytes]
    simp only [hi, hv]
  · rw [clock_property_eq]
    rfl

/-- C9 at a concrete input: the message with id 3 and value `0xFFFFFFFF` on a
little-endian build. -/
theorem prop_framing_witness :
    prop_bytes false ⟨3, 4294967295⟩ = [3, 0, 0, 0, 255, 255, 255, 255] ∧
    prop_of_bytes false (prop_bytes false ⟨3, 4294967295⟩) = ⟨3, 4294967295⟩ :=
  ⟨by decide,
   (prop_framing false 3 4294967295 (fixed_reply false 0 0) RPI_FIRMWARE_SET_CLOCK_RATE
      ⟨(), []⟩ (by decide) (by decide)).2.2.2.2.2.2.2.1⟩

/-- C7, as stated, fails: where `long` is 32 bits wide `rpi_cpu_round_rate`
returns -1 for the rate `u32::MAX` = 4294967295, not 4294967295. -/
theorem round_rate_long32_u32_max :
    rpi_cpu_round_rate 32 (⟨fixed_reply false 0 0⟩ : rpi_cpu_clkgen Unit) 4294967295 0 = -1 ∧
    ¬ (rpi_cpu_round_rate 32 (⟨fixed_reply false 0 0⟩ : rpi_cpu_clkgen Unit) 4294967295 0 =
        4294967295) := by
  decide

/-- C7, amended: `rpi_cpu_round_rate` returns its rate argument unchanged for
every rate that the return type `long` can hold, that is for every rate below
`2 ^ (longBits - 1)`, whatever the clock handle and the parent rate. -/
theorem round_rate_identity_within_long {σ : Type} (longBits : Nat) (hw : rpi_cpu_clkgen σ)
    (rate parent_rate : Nat) (hbits : 0 < longBits) (hrate : rate < 2 ^ (longBits - 1)) :
    rpi_cpu_round_rate longBits hw rate parent_rate = rate ∧
    ∀ (other_hw : rpi_cpu_clkgen σ) (other_parent_rate : Nat),
      rpi_cpu_round_rate longBits other_hw rate other_parent_rate =
        rpi_cpu_round_rate longBits hw rate parent_rate :=
  ⟨toSigned_of_lt_half longBits hbits rate hrate, fun _ _ => rfl⟩

/-- C7, amended, at a concrete input: with a 64-bit `long` the rate `u32::MAX` is
returned unchanged. -/
theorem round_rate_identity_within_long_witness :
    rpi_cpu_round_rate 64 (⟨fixed_reply false 0 0⟩ : rpi_cpu_clkgen Unit) 4294967295 0 =
      4294967295 :=
  (round_rate_identity_within_long 64 ⟨fixed_reply false 0 0⟩ 4294967295 0
    (by decide) (by decide)).1

/-- Where `long` is 64 bits wide `rpi_cpu_round_rate` is the identity on every
32-bit rate. -/
theorem round_rate_long64_u32 {σ : Type} (hw : rpi_cpu_clkgen σ) (rate parent_rate : Nat)
    (hrate : rate < 2 ^ 32) : rpi_cpu_round_rate 64 hw rate parent_rate = rate :=
  toSigned_of_lt_half 64 (by decide) rate (lt_trans hrate (by decide))

/-- Whatever the width of `long`, the value returned by `rpi_cpu_round_rate` has
the bits of its rate argument: converted back to `unsigned long` it is the
rate. -/
theorem round_rate_same_bits {σ : Type} (longBits : Nat) (hw : rpi_cpu_clkgen σ)
    (rate parent_rate : Nat) :
    rpi_cpu_round_rate longBits hw rate parent_rate % 2 ^ longBits =
      ((rate % 2 ^ longBits : Nat) : Int) := by
  unfold rpi_cpu_round_rate
  rw [toSigned_emod]
  have h : ((rate % 2 ^ longBits : Nat) : Int) = (rate : Int) % 2 ^ longBits := by
    push_cast
    rfl
  rw [h, Int.emod_emod_of_dvd _ (dvd_refl _)]

end ClkRaspberrypi
